import Mathlib

/-!
Verification of the llm-repl notebook engine (`src/llm_repl/cells.py`,
`src/llm_repl/notebook.py`) against its specification.

The engine is embedded shallowly:

* Python dicts threading the notebook state become association lists over a
  `Value` type covering the literal fragment the engine manipulates.
* Each cell evaluator (`MarkdownCell.execute`, `ComputationCell.execute`,
  `PromptCell.execute`, `MemoryCell.execute`) becomes a total Lean function,
  so "never raises past the evaluator boundary" holds by construction.
* Calls into the Python runtime or external services — `exec`, `ast.parse`,
  `str.format`, the LLM provider, `ast.literal_eval`, restricted `eval`,
  expression-name detection — are oracle parameters collected in `Oracles`;
  theorems quantify over all oracle behaviours, and concrete theorems
  instantiate them with executable models (`demoOracles`) that agree with
  CPython on the inputs used.
* String manipulation (`strip`, `split`, `startswith`, slicing, `in`) is
  re-implemented over character lists so that concrete executions reduce in
  the kernel.
-/

namespace LLMRepl

/-- A Python runtime value, restricted to the literal fragment the engine
manipulates (numbers, strings, booleans, `None`, lists, string-keyed dicts). -/
inductive Value where
  | int (n : Int)
  | str (s : String)
  | bool (b : Bool)
  | vnone
  | list (xs : List Value)
  | dict (xs : List (String × Value))

mutual
/-- Python `==` on the modelled value fragment (structural equality). -/
def Value.beq : Value → Value → Bool
  | .int a, .int b => a == b
  | .str a, .str b => a == b
  | .bool a, .bool b => a == b
  | .vnone, .vnone => true
  | .list a, .list b => Value.beqList a b
  | .dict a, .dict b => Value.beqDict a b
  | _, _ => false

def Value.beqList : List Value → List Value → Bool
  | [], [] => true
  | a :: as, b :: bs => Value.beq a b && Value.beqList as bs
  | _, _ => false

def Value.beqDict : List (String × Value) → List (String × Value) → Bool
  | [], [] => true
  | (k, a) :: as, (l, b) :: bs => k == l && Value.beq a b && Value.beqDict as bs
  | _, _ => false
end

mutual
/-- Python `repr` on the modelled value fragment. -/
def Value.pyRepr : Value → String
  | .int n => toString n
  | .str s => "\x27" ++ s ++ "\x27"
  | .bool b => cond b "True" "False"
  | .vnone => "None"
  | .list xs => "[" ++ String.intercalate ", " (Value.pyReprList xs) ++ "]"
  | .dict xs => "\x7b" ++ String.intercalate ", " (Value.pyReprDict xs) ++ "\x7d"

def Value.pyReprList : List Value → List String
  | [] => []
  | v :: vs => Value.pyRepr v :: Value.pyReprList vs

def Value.pyReprDict : List (String × Value) → List String
  | [] => []
  | (k, v) :: es => ("\x27" ++ k ++ "\x27: " ++ Value.pyRepr v) :: Value.pyReprDict es
end

/-- Python `str` on the modelled value fragment. -/
def Value.pyStr : Value → String
  | .str s => s
  | v => Value.pyRepr v

/-- The notebook state: a Python dict from variable names to values, modelled
as an insertion-ordered association list. -/
def State := List (String × Value)

/-- Dict lookup (`state[key]` / `state.get(key)`). -/
def State.get : State → String → Option Value
  | [], _ => Option.none
  | (k', v') :: rest, k => if k' = k then some v' else State.get rest k

/-- Dict assignment (`state[key] = value`): replaces in place if the key is
present, otherwise appends, as CPython dicts do. -/
def State.set : State → String → Value → State
  | [], k, v => [(k, v)]
  | (k', v') :: rest, k, v =>
    if k' = k then (k, v) :: rest else (k', v') :: State.set rest k v

/-- `set(state.keys())` as a list (membership is all that is ever used). -/
def stateKeys (st : State) : List String := st.map Prod.fst

/-- `dict.update(other)`: successive assignments in iteration order. -/
def State.update (st : State) (other : List (String × Value)) : State :=
  other.foldl (fun s kv => State.set s kv.1 kv.2) st

/-- Python `set.add` on a set modelled as a duplicate-free list. -/
def sinsert (xs : List String) (x : String) : List String :=
  if x ∈ xs then xs else xs ++ [x]

/-! ### Character-level string helpers

Lean's built-in `String.trim`/`String.splitOn` do not reduce in the kernel,
so the Python string operations used by the engine are re-implemented over
`List Char`. -/

/-- Python `str.strip()`. -/
def pyStrip (s : String) : String :=
  String.mk (((s.toList.dropWhile Char.isWhitespace).reverse.dropWhile
    Char.isWhitespace).reverse)

def splitLinesAux : List Char → List (List Char)
  | [] => [[]]
  | x :: xs =>
    let r := splitLinesAux xs
    if x = '\n' then [] :: r
    else match r with
      | [] => [[x]]
      | h :: t => (x :: h) :: t

/-- Python `str.split(newline)`. -/
def splitLines (s : String) : List String :=
  (splitLinesAux s.toList).map String.mk

/-- Python `str.startswith(pre)`. -/
def strStarts (pre s : String) : Bool := List.isPrefixOf pre.toList s.toList

def strHasAux (needle : List Char) : List Char → Bool
  | [] => List.isPrefixOf needle []
  | x :: xs => List.isPrefixOf needle (x :: xs) || strHasAux needle xs

/-- Python `needle in hay` on strings (substring test). -/
def strHas (needle hay : String) : Bool := strHasAux needle.toList hay.toList

/-- Python slicing `s[n:]`. -/
def strDrop (s : String) (n : Nat) : String := String.mk (s.toList.drop n)

/-- Python slicing `s[:-1]`. -/
def strDropLast (s : String) : String := String.mk s.toList.dropLast

/-- Python slicing `s[:n]`. -/
def strTake (s : String) (n : Nat) : String := String.mk (s.toList.take n)

def splitEqAux : List Char → List Char × List Char
  | [] => ([], [])
  | x :: xs =>
    if x = '=' then ([], xs)
    else
      let (a, b) := splitEqAux xs
      (x :: a, b)

/-- Python `line.split(eq-sign, 1)` for a line known to contain the
separator: the text before the first separator and the text after it. -/
def splitEqOnce (s : String) : String × String :=
  let (a, b) := splitEqAux s.toList
  (String.mk a, String.mk b)

/-! ### Cell outputs -/

/-- One entry of a cell's `outputs` list, tagged as in the source. -/
inductive Output where
  | markdown (content : String)
  | stdout (content : String)
  | error (content : String)
  | warning (content : String)
  | llmResponse (prompt content : String)
  | memoryUpdate (added : List String) (updatedState : List (String × String))

/-! ### The mini-AST for computation-cell sources

`ComputationCell._analyze_dependencies` walks the `ast`-parsed source with a
`NodeVisitor`; the fragment needed by the claims is assignments whose
right-hand sides are names, constants and binary additions.  `ast.NodeVisitor`
visits an `Assign` node's fields in declaration order: `targets` first (all
`Store` contexts), then `value`. -/

inductive Expr where
  | const (v : Value)
  | name (id : String)
  | binAdd (a b : Expr)

inductive Stmt where
  | assign (targets : List String) (value : Expr)

/-- The mutable state of `DependencyVisitor`: the `dependencies` and
`assignments` sets. -/
structure VisitorSt where
  dependencies : List String
  assignments : List String

/-- `DependencyVisitor.visit_Name` on a `Load`-context name. -/
def visitLoad (stateVars : List String) (vs : VisitorSt) (id : String) : VisitorSt :=
  if id ∈ stateVars then
    if id ∈ vs.assignments then vs
    else { vs with dependencies := sinsert vs.dependencies id }
  else vs

/-- Visiting an expression: every `Name` inside it is in `Load` context and
is visited left to right. -/
def visitExpr (stateVars : List String) : VisitorSt → Expr → VisitorSt
  | vs, .const _ => vs
  | vs, .name id => visitLoad stateVars vs id
  | vs, .binAdd a b => visitExpr stateVars (visitExpr stateVars vs a) b

/-- Visiting an `Assign` statement: the `Store`-context targets are visited
before the right-hand side, exactly as `ast.iter_fields` orders them. -/
def visitStmt (stateVars : List String) (vs : VisitorSt) : Stmt → VisitorSt
  | .assign tgts value =>
    visitExpr stateVars { vs with assignments := tgts.foldl sinsert vs.assignments } value

/-- `ComputationCell._analyze_dependencies` on an already-parsed module:
returns the `dependencies` set of the visitor run over all statements. -/
def analyzeStmts (prog : List Stmt) (stateVars : List String) : List String :=
  (prog.foldl (visitStmt stateVars) ⟨[], []⟩).dependencies

/-! ### Oracles for the Python runtime and external services -/

/-- Failure modes of `str.format(**state)`: a `KeyError` for a missing
placeholder (handled specially by `PromptCell.execute`) or any other
exception. -/
inductive FmtError where
  | keyError (name : String)
  | other (msg : String)

/-- The engine's capability boundary.  Each field models one call the
evaluators make into the Python runtime or an external collaborator; the
theorems quantify over all oracle behaviours. -/
structure Oracles where
  /-- `exec(content, safe_globals, local_ns)` plus stdout capture: from the
  cell source and the seeded namespace, the final namespace and the captured
  stdout, or the exception that escaped. -/
  exec : String → State → Except String (State × String)
  /-- `ast.parse` for `_analyze_dependencies`: the parsed statements or a
  `SyntaxError`. -/
  parse : String → Except String (List Stmt)
  /-- `re.findall` of `{name}` placeholders over a prompt template. -/
  templateVars : String → List String
  /-- `content.format(**state)`. -/
  format : String → State → Except FmtError String
  /-- `llm.generate(prompt, model, temperature)` (provider lookup included). -/
  generate : String → String → Rat → Except String String
  /-- `ast.literal_eval` on an argument/right-hand-side text. -/
  litEval : String → Except String Value
  /-- restricted `eval(value, safe_globals, new_state)`. -/
  evalRestricted : String → State → Except String Value
  /-- `ast.parse(expression, mode=eval-mode)` plus the walk collecting
  `Load`-context names, `Option.none` on a `SyntaxError`. -/
  exprNames : String → Option (List String)

/-! ### Cells -/

/-- Kind-specific configuration of a `PromptCell`.  `cellIndex` models
`_cell_index`, initialised to `None` in `__init__` and never assigned
anywhere else in the repository. -/
structure PromptCfg where
  model : String
  temperature : Rat
  responseVar : Option String
  cellIndex : Option Nat

/-- The four cell kinds; the `Prompt` kind carries its configuration. -/
inductive CellKind where
  | markdown
  | computation
  | prompt (cfg : PromptCfg)
  | memory

/-- A cell: kind, source text, identifier, and the fields mutated by
execution (`outputs`, `_state_dependencies`, `_state_produces`). -/
structure Cell where
  kind : CellKind
  content : String
  cellId : String
  outputs : List Output
  stateDependencies : List String
  stateProduces : List String

/-- `Cell.__init__`: fresh cells start with empty outputs and empty
dependency/produce sets. -/
def Cell.make (kind : CellKind) (content : String) (cellId : String) : Cell :=
  ⟨kind, content, cellId, [], [], []⟩

def dfltCell : Cell := Cell.make .markdown "" ""

/-- `MarkdownCell.execute`: stores the content as a single `markdown` output
and returns the state unchanged. -/
def markdownExecute (c : Cell) (st : State) : Cell × State :=
  ({ c with outputs := [.markdown c.content] }, st)

/-- `ComputationCell._analyze_dependencies` on the raw source: parse, walk;
on a `SyntaxError` fall back to the empty dependency set. -/
def compDeps (O : Oracles) (content : String) (st : State) : List String :=
  match O.parse content with
  | .ok prog => analyzeStmts prog (stateKeys st)
  | .error _ => []

/-- One step of the post-`exec` namespace diff in `ComputationCell.execute`:
skip names starting with the private-name prefix, skip names whose value
equals the original state's value, otherwise merge into the new state and
record the name as produced. -/
def diffMergeStep (st : State) (acc : State × List String) (kv : String × Value) :
    State × List String :=
  if strStarts "_" kv.1 then acc
  else
    match State.get st kv.1 with
    | some v =>
      if Value.beq v kv.2 then acc
      else (State.set acc.1 kv.1 kv.2, sinsert acc.2 kv.1)
    | Option.none => (State.set acc.1 kv.1 kv.2, sinsert acc.2 kv.1)

/-- `ComputationCell.execute`: clear outputs, recompute dependencies from the
source, run the code in a namespace seeded with a copy of the state, then on
success diff the namespace against the seed and merge; on an exception record
a single `error` output and return the state unchanged. -/
def computationExecute (O : Oracles) (c : Cell) (st : State) : Cell × State :=
  let deps := compDeps O c.content st
  match O.exec c.content st with
  | .error e => ({ c with outputs := [.error e], stateDependencies := deps }, st)
  | .ok (ns, out) =>
    let outs : List Output := if out = "" then [] else [.stdout out]
    let merged := ns.foldl (diffMergeStep st) (st, c.stateProduces)
    ({ c with outputs := outs, stateDependencies := deps, stateProduces := merged.2 },
      merged.1)

/-- The response-variable naming chain of `PromptCell.execute`: the
explicitly configured name if truthy, else `response_<index>` when
`_cell_index` was set, else `response_` followed by the first eight
characters of the cell id. -/
def chooseResponseVar (cfg : PromptCfg) (cellId : String) : String :=
  let dflt :=
    match cfg.cellIndex with
    | some i => "response_" ++ toString i
    | Option.none => "response_" ++ strTake cellId 8
  match cfg.responseVar with
  | some v => if v = "" then dflt else v
  | Option.none => dflt

/-- `PromptCell.execute`: clear outputs, record template placeholders present
in the state as dependencies, format the template, call the provider, then
store the response under the chosen name and under the reserved last-result
key; a missing placeholder or a provider failure yields a single `error`
output and the unchanged state. -/
def promptExecute (O : Oracles) (cfg : PromptCfg) (c : Cell) (st : State) :
    Cell × State :=
  let deps := (O.templateVars c.content).foldl
    (fun d v => if (State.get st v).isSome then sinsert d v else d)
    c.stateDependencies
  let c := { c with stateDependencies := deps }
  match O.format c.content st with
  | .error (.keyError k) =>
    ({ c with outputs := [.error ("Missing variable in state: \x27" ++ k ++ "\x27")] }, st)
  | .error (.other m) => ({ c with outputs := [.error m] }, st)
  | .ok fp =>
    match O.generate fp cfg.model cfg.temperature with
    | .error e => ({ c with outputs := [.error e] }, st)
    | .ok resp =>
      let rv := chooseResponseVar cfg c.cellId
      let st' := State.set (State.set st rv (.str resp)) "_" (.str resp)
      ({ c with outputs := [.llmResponse fp resp],
                stateProduces := sinsert (sinsert c.stateProduces rv) "_" }, st')

/-- The accumulator threaded through `MemoryCell.execute`'s line loop:
the `new_state` under construction, the dependency and produce sets, and the
outputs recorded so far. -/
structure MemAcc where
  state : State
  deps : List String
  prods : List String
  outs : List Output

/-- Processing of one line of a memory cell, faithful to the branch order of
`MemoryCell.execute`: strip; skip blanks and comment lines; a bulk-update
line is safe-literal-parsed (a parse failure or a non-dict argument records
an `error` output and the loop continues); otherwise a line containing the
assignment separator but no comparison operator is a simple assignment whose
right-hand side is literal-parsed first, then evaluated restrictedly against
the state built so far, and finally stored as a raw string with a `warning`
output; all other lines are silently ignored. -/
def memoryLine (O : Oracles) (origSt : State) (acc : MemAcc) (rawLine : String) :
    MemAcc :=
  let line := pyStrip rawLine
  if line = "" then acc
  else if strStarts "#" line then acc
  else if strStarts "memory.update(" line then
    let arg := strDropLast (strDrop line 14)
    match O.litEval arg with
    | .error e =>
      { acc with outs := acc.outs ++ [.error ("Error parsing memory.update(): " ++ e)] }
    | .ok v =>
      match v with
      | .dict d =>
        let deps := d.foldl
          (fun ds kv =>
            match kv.2 with
            | .str s => if (State.get origSt s).isSome then sinsert ds s else ds
            | _ => ds)
          acc.deps
        { acc with
            state := State.update acc.state d
            deps := deps
            prods := d.foldl (fun ps kv => sinsert ps kv.1) acc.prods }
      | _ =>
        { acc with outs := acc.outs ++
            [.error "Error parsing memory.update(): memory.update() requires a dictionary"] }
  else if strHas "=" line &&
      !(strHas "==" line || strHas "!=" line || strHas "<=" line || strHas ">=" line) then
    let p := splitEqOnce line
    let varName := pyStrip p.1
    let valueStr := pyStrip p.2
    match O.litEval valueStr with
    | .ok v =>
      { acc with state := State.set acc.state varName v,
                 prods := sinsert acc.prods varName }
    | .error _ =>
      let deps :=
        match O.exprNames valueStr with
        | some ns => ns.foldl
            (fun ds n => if (State.get origSt n).isSome then sinsert ds n else ds) acc.deps
        | Option.none => acc.deps
      match O.evalRestricted valueStr acc.state with
      | .ok v =>
        { acc with state := State.set acc.state varName v,
                   deps := deps,
                   prods := sinsert acc.prods varName }
      | .error e =>
        { acc with state := State.set acc.state varName (.str valueStr),
                   deps := deps,
                   prods := sinsert acc.prods varName,
                   outs := acc.outs ++
                     [.warning ("Could not evaluate \x27" ++ valueStr ++
                       "\x27, storing as string: " ++ e)] }
  else acc

/-- `MemoryCell.execute`: clear outputs, process each line of the content,
then append one `memory_update` output summarising every produced name with
its stringified value, and return the accumulated state. -/
def memoryExecute (O : Oracles) (c : Cell) (st : State) : Cell × State :=
  let acc := (splitLines c.content).foldl (memoryLine O st)
    ⟨st, c.stateDependencies, c.stateProduces, []⟩
  let summary := Output.memoryUpdate acc.prods
    ((acc.state.filter (fun kv => acc.prods.contains kv.1)).map
      (fun kv => (kv.1, kv.2.pyStr)))
  ({ c with outputs := acc.outs ++ [summary],
            stateDependencies := acc.deps,
            stateProduces := acc.prods }, acc.state)

/-- `Cell.execute`: dispatch on the cell kind.  Total: no execution raises
past the evaluator boundary. -/
def Cell.execute (O : Oracles) (c : Cell) (st : State) : Cell × State :=
  match c.kind with
  | .markdown => markdownExecute c st
  | .computation => computationExecute O c st
  | .prompt cfg => promptExecute O cfg c st
  | .memory => memoryExecute O c st

/-- The evaluator-failure branches of `Cell.execute`: `some e` exactly when
the evaluator catches an exception (code exception for computation cells,
missing template variable or provider failure for prompt cells) and `e` is
the message it records.  Markdown and memory evaluations never take a
cell-level failure branch in the modelled fragment. -/
def Cell.evalError (O : Oracles) (c : Cell) (st : State) : Option String :=
  match c.kind with
  | .markdown => Option.none
  | .memory => Option.none
  | .computation =>
    match O.exec c.content st with
    | .error e => some e
    | .ok _ => Option.none
  | .prompt cfg =>
    match O.format c.content st with
    | .error (.keyError k) => some ("Missing variable in state: \x27" ++ k ++ "\x27")
    | .error (.other m) => some m
    | .ok fp =>
      match O.generate fp cfg.model cfg.temperature with
      | .error e => some e
      | .ok _ => Option.none

/-! ### Notebook -/

/-- A notebook: name, identifier, ordered cells, and the single current
state store. -/
structure Notebook where
  name : String
  notebookId : String
  cells : List Cell
  state : State

def outOfRangeMsg (i : Int) : String :=
  "Cell index " ++ toString i ++ " out of range"

/-- `Notebook.execute_cell`: bounds-check the index (an `IndexError` raised
to the caller otherwise), run the cell against the current state, replace the
state store with the evaluator's returned state, and return the cell's
outputs. -/
def Notebook.executeCell (O : Oracles) (nb : Notebook) (i : Int) :
    Except String (Notebook × List Output) :=
  if i < 0 ∨ (nb.cells.length : Int) ≤ i then .error (outOfRangeMsg i)
  else
    let n := i.toNat
    let c := nb.cells.getD n dfltCell
    let r := Cell.execute O c nb.state
    .ok ({ nb with cells := nb.cells.set n r.1, state := r.2 }, r.1.outputs)

/-- `Notebook.get_cell_dependencies`: bounds-check, then every preceding cell
some of whose produced names the target reads. -/
def Notebook.getCellDependencies (nb : Notebook) (i : Int) :
    Except String (List Nat) :=
  if i < 0 ∨ (nb.cells.length : Int) ≤ i then .error (outOfRangeMsg i)
  else
    let n := i.toNat
    let c := nb.cells.getD n dfltCell
    .ok ((List.range n).filter (fun j =>
      ((nb.cells.getD j dfltCell).stateProduces).any
        (fun v => c.stateDependencies.contains v)))

/-- `Notebook.get_dependent_cells`: bounds-check, then every following cell
that reads some name the target produced. -/
def Notebook.getDependentCells (nb : Notebook) (i : Int) :
    Except String (List Nat) :=
  if i < 0 ∨ (nb.cells.length : Int) ≤ i then .error (outOfRangeMsg i)
  else
    let n := i.toNat
    let c := nb.cells.getD n dfltCell
    .ok ((List.range nb.cells.length).filter (fun j =>
      decide (n < j) &&
        (c.stateProduces).any
          (fun v => (nb.cells.getD j dfltCell).stateDependencies.contains v)))

/-! ### Persistence -/

/-- One cell record of the persisted document: `Notebook.to_dict` stores the
id, the class-name kind tag, the content, the outputs, and — for prompt cells
only — `model` and `temperature`.  The explicit response-variable name is not
among the stored fields. -/
structure CellRecord where
  cellId : String
  typeTag : String
  content : String
  outputs : List Output
  model : Option String
  temperature : Option Rat

def kindTag : CellKind → String
  | .markdown => "MarkdownCell"
  | .computation => "ComputationCell"
  | .prompt _ => "PromptCell"
  | .memory => "MemoryCell"

/-- The cell entry built by `Notebook.to_dict`. -/
def Cell.toRecord (c : Cell) : CellRecord :=
  { cellId := c.cellId
    typeTag := kindTag c.kind
    content := c.content
    outputs := c.outputs
    model := match c.kind with | .prompt cfg => some cfg.model | _ => Option.none
    temperature := match c.kind with | .prompt cfg => some cfg.temperature | _ => Option.none }

/-- The persisted document (`Notebook.to_dict` / the JSON file): identifier,
name, cell records, and only the names of the state keys. -/
structure NotebookDoc where
  notebookId : String
  name : String
  cells : List CellRecord
  stateKeys : List String

/-- `Notebook.to_dict`. -/
def Notebook.toDoc (nb : Notebook) : NotebookDoc :=
  { notebookId := nb.notebookId
    name := nb.name
    cells := nb.cells.map Cell.toRecord
    stateKeys := stateKeys nb.state }

/-- Reconstruction of one cell in `Notebook.load`: dispatch on the kind tag,
rebuild the cell (fresh dependency/produce sets, prompt config from the
stored `model`/`temperature` with defaults, no response variable), restore
the outputs verbatim; an unrecognized tag is a hard failure. -/
def loadCell (r : CellRecord) : Except String Cell :=
  if r.typeTag = "MarkdownCell" then
    .ok ⟨.markdown, r.content, r.cellId, r.outputs, [], []⟩
  else if r.typeTag = "ComputationCell" then
    .ok ⟨.computation, r.content, r.cellId, r.outputs, [], []⟩
  else if r.typeTag = "PromptCell" then
    .ok ⟨.prompt ⟨r.model.getD "gpt-4", r.temperature.getD 0.7, Option.none, Option.none⟩,
         r.content, r.cellId, r.outputs, [], []⟩
  else if r.typeTag = "MemoryCell" then
    .ok ⟨.memory, r.content, r.cellId, r.outputs, [], []⟩
  else
    .error ("Unknown cell type: " ++ r.typeTag)

/-- `Notebook.load`: reconstruct every cell (failing hard on an unknown kind
tag) and start with an empty state store. -/
def Notebook.loadDoc (doc : NotebookDoc) : Except String Notebook := do
  let cells ← doc.cells.mapM loadCell
  return { name := doc.name, notebookId := doc.notebookId, cells := cells, state := [] }

/-- What a save/load round trip preserves of a prompt configuration: model
and temperature survive; the response variable and the index do not. -/
def stripCfg (cfg : PromptCfg) : PromptCfg :=
  { model := cfg.model, temperature := cfg.temperature,
    responseVar := Option.none, cellIndex := Option.none }

def stripKind : CellKind → CellKind
  | .prompt cfg => .prompt (stripCfg cfg)
  | k => k

/-- What a save/load round trip preserves of a cell: kind (with stripped
prompt config), content, id and outputs; the dependency and produce sets are
reset. -/
def stripCell (c : Cell) : Cell :=
  { c with kind := stripKind c.kind, stateDependencies := [], stateProduces := [] }

/-! ### Concrete oracle instances

Executable models of the Python runtime's behaviour on the inputs that the
concrete theorems use; each agrees with CPython there. -/

/-- Evaluation of the modelled expression fragment as CPython does. -/
def interpExpr : Expr → State → Except String Value
  | .const v, _ => .ok v
  | .name n, ns =>
    match State.get ns n with
    | some v => .ok v
    | Option.none => .error ("name \x27" ++ n ++ "\x27 is not defined")
  | .binAdd a b, ns =>
    match interpExpr a ns, interpExpr b ns with
    | .ok (.int x), .ok (.int y) => .ok (.int (x + y))
    | .ok _, .ok _ => .error "unsupported operand type(s) for +"
    | .error e, _ => .error e
    | _, .error e => .error e

def interpStmt (ns : State) : Stmt → Except String State
  | .assign tgts e =>
    match interpExpr e ns with
    | .ok v => .ok (tgts.foldl (fun s t => State.set s t v) ns)
    | .error e => .error e

def interpProg : List Stmt → State → Except String State
  | [], ns => .ok ns
  | s :: rest, ns =>
    match interpStmt ns s with
    | .ok ns' => interpProg rest ns'
    | .error e => .error e

/-- `ast.parse` on the sources the concrete theorems use. -/
def demoParse (s : String) : Except String (List Stmt) :=
  if s = "x = 1" then .ok [.assign ["x"] (.const (.int 1))]
  else if s = "y = x + 1" then .ok [.assign ["y"] (.binAdd (.name "x") (.const (.int 1)))]
  else .error "invalid syntax"

/-- `exec` with stdout capture: parse, then run; none of the demo sources
print. -/
def demoExec (s : String) (st : State) : Except String (State × String) :=
  match demoParse s with
  | .error e => .error e
  | .ok prog =>
    match interpProg prog st with
    | .error e => .error e
    | .ok ns => .ok (ns, "")

/-- `re.findall` of placeholders on the demo templates. -/
def demoTemplateVars (s : String) : List String :=
  if s = "Tell me about {topic}" then ["topic"] else []

/-- `str.format(**state)` on the demo templates. -/
def demoFormat (s : String) (st : State) : Except FmtError String :=
  if s = "Tell me about {topic}" then
    match State.get st "topic" with
    | some v => .ok ("Tell me about " ++ v.pyStr)
    | Option.none => .error (.keyError "topic")
  else .ok s

/-- A stub generation capability, as the repository's tests mock it. -/
def demoGenerate (_prompt _model : String) (_temperature : Rat) : Except String String :=
  .ok "This is a mock response."

/-- `ast.literal_eval` on the demo argument texts. -/
def demoLitEval (s : String) : Except String Value :=
  if s = "1" then .ok (.int 1)
  else if s = "5" then .ok (.int 5)
  else .error "malformed node or string"

/-- The `Load`-context names of the demo right-hand sides. -/
def demoExprNames (s : String) : Option (List String) :=
  if s = "a + 1" then some ["a"] else Option.none

/-- Restricted `eval` on the demo right-hand sides. -/
def demoEvalRestricted (s : String) (ns : State) : Except String Value :=
  if s = "a + 1" then
    match State.get ns "a" with
    | some (.int n) => .ok (.int (n + 1))
    | some _ => .error "unsupported operand type(s) for +"
    | Option.none => .error "name \x27a\x27 is not defined"
  else .error "invalid syntax"

def demoOracles : Oracles :=
  ⟨demoExec, demoParse, demoTemplateVars, demoFormat, demoGenerate,
   demoLitEval, demoEvalRestricted, demoExprNames⟩

/-! ### Concrete fixtures -/

/-- A prompt cell with the test-suite template, no explicit response
variable, default model and temperature. -/
def promptTopicCell : Cell :=
  Cell.make (.prompt ⟨"gpt-4", 0.7, Option.none, Option.none⟩)
    "Tell me about {topic}" "abcdef12-3456-7890"

/-- The notebook of `test_execute_prompt_cell`: the prompt cell at index 0
and state `topic = Python`. -/
def c2Notebook : Notebook :=
  ⟨"Test Notebook", "nb-c2", [promptTopicCell], [("topic", .str "Python")]⟩

/-- A memory cell that assigns the reserved last-result key. -/
def memUnderscoreCell : Cell := Cell.make .memory "_ = 5" "mem-underscore"

/-- Prompt cell followed by a memory cell that overwrites the reserved
key. -/
def c5Notebook : Notebook :=
  ⟨"Test Notebook", "nb-c5", [promptTopicCell, memUnderscoreCell],
   [("topic", .str "Python")]⟩

/-- A memory cell whose single assignment right-hand side is not a literal
and references the state name `a`. -/
def memACell : Cell := Cell.make .memory "x = a + 1" "mem-a"

/-- A memory cell with a good assignment line followed by a malformed
bulk-update line. -/
def memBadCell : Cell := Cell.make .memory "x = 1\nmemory.update(foo)" "mem-bad"

/-- The dependency-graph example notebook: `x = 1` then `y = x + 1`. -/
def c8Notebook : Notebook :=
  ⟨"Test Notebook", "nb-c8",
   [Cell.make .computation "x = 1" "c8-cell0",
    Cell.make .computation "y = x + 1" "c8-cell1"], []⟩

/-- A notebook holding a prompt cell with an explicitly configured response
variable. -/
def c7Notebook : Notebook :=
  ⟨"Test Notebook", "nb-c7",
   [Cell.make (.prompt ⟨"gpt-4", 0.7, some "summary", Option.none⟩)
      "Tell me about {topic}" "prompt-c7"], []⟩

/-- A document with a cell record carrying an unrecognized kind tag. -/
def badDoc : NotebookDoc :=
  ⟨"nb-bad", "Bad Notebook",
   [⟨"cell-bad", "FancyCell", "whatever", [], Option.none, Option.none⟩], []⟩

/-! ### Flattened visit events

A specification-level view of the dependency walk, used to compare the
visitor (written from the source) with the spec's description of which
loads count as reads. -/

/-- One event of the dependency walk in visitor order: a `Store`-context or
`Load`-context occurrence of a name. -/
inductive Ev where
  | store (n : String)
  | load (n : String)

def exprEvents : Expr → List Ev
  | .const _ => []
  | .name id => [.load id]
  | .binAdd a b => exprEvents a ++ exprEvents b

/-- The events of one statement in visitor order: an assignment's targets
precede its right-hand side. -/
def stmtEvents : Stmt → List Ev
  | .assign tgts value => tgts.map Ev.store ++ exprEvents value

def progEvents : List Stmt → List Ev
  | [] => []
  | s :: rest => stmtEvents s ++ progEvents rest

/-- Specification view of "read": the name has a `Load` occurrence strictly
before any `Store` occurrence in the event sequence. -/
def loadBeforeStore (n : String) : List Ev → Bool
  | [] => false
  | .load m :: rest => if m = n then true else loadBeforeStore n rest
  | .store m :: rest => if m = n then false else loadBeforeStore n rest

/-- The visitor replayed over a flat event list (device relating the tree
walk to `loadBeforeStore`). -/
def evFold (stateVars : List String) : VisitorSt → List Ev → VisitorSt
  | vs, [] => vs
  | vs, .store m :: rest =>
    evFold stateVars { vs with assignments := sinsert vs.assignments m } rest
  | vs, .load m :: rest => evFold stateVars (visitLoad stateVars vs m) rest

/-! ### State lemmas -/

theorem get_set_self (s : State) (k : String) (v : Value) :
    State.get (State.set s k v) k = some v := by
  induction s with
  | nil => simp [State.set, State.get]
  | cons kv rest ih =>
    obtain ⟨k', v'⟩ := kv
    by_cases h : k' = k
    · subst h
      simp [State.set, State.get]
    · simp [State.set, State.get, h, ih]

theorem get_set_ne (s : State) (k k' : String) (v : Value) (h : k ≠ k') :
    State.get (State.set s k' v) k = State.get s k := by
  induction s with
  | nil => simp [State.set, State.get, Ne.symm h]
  | cons kv rest ih =>
    obtain ⟨k'', v''⟩ := kv
    by_cases h2 : k'' = k'
    · subst h2
      simp [State.set, State.get, Ne.symm h]
    · simp only [State.set, if_neg h2, State.get]
      rw [ih]

theorem isSome_get_set (s : State) (k k' : String) (v : Value)
    (h : (State.get s k).isSome) : (State.get (State.set s k' v) k).isSome := by
  by_cases he : k = k'
  · subst he
    simp [get_set_self]
  · rwa [get_set_ne s k k' v he]

theorem isSome_get_update (d : List (String × Value)) :
    ∀ (s : State) (k : String), (State.get s k).isSome →
      (State.get (State.update s d) k).isSome := by
  induction d with
  | nil => intro s k h; exact h
  | cons kv rest ih =>
    intro s k h
    simp only [State.update, List.foldl_cons] at *
    exact ih _ _ (isSome_get_set _ _ _ _ h)

/-! ### Set-as-list lemmas -/

theorem mem_sinsert (l : List String) (x a : String) :
    a ∈ sinsert l x ↔ a = x ∨ a ∈ l := by
  unfold sinsert
  split
  · next h => constructor
              · intro ha; exact Or.inr ha
              · intro ha; cases ha with
                | inl hq => exact hq ▸ h
                | inr hq => exact hq
  · simp [List.mem_append, or_comm]

theorem subset_sinsert (l : List String) (x : String) : l ⊆ sinsert l x := by
  intro a ha
  exact (mem_sinsert l x a).2 (Or.inr ha)

/-- A fold whose step only grows a string set keeps the starting set. -/
theorem subset_foldl {β : Type} (f : List String → β → List String)
    (hf : ∀ acc b, acc ⊆ f acc b) (l : List β) :
    ∀ acc, acc ⊆ l.foldl f acc := by
  induction l with
  | nil => intro acc; exact List.Subset.refl _
  | cons b rest ih =>
    intro acc
    intro a ha
    exact ih (f acc b) (hf acc b ha)

/-! ### Namespace-diff lemmas (`ComputationCell.execute`) -/

theorem diffMergeStep_isSome (st : State) (acc : State × List String)
    (kv : String × Value) (k : String) (h : (State.get acc.1 k).isSome) :
    (State.get (diffMergeStep st acc kv).1 k).isSome := by
  unfold diffMergeStep
  split
  · exact h
  · split
    · split
      · exact h
      · exact isSome_get_set _ _ _ _ h
    · exact isSome_get_set _ _ _ _ h

theorem diffMerge_fold_isSome (st : State) (ns : List (String × Value)) :
    ∀ (acc : State × List String) (k : String), (State.get acc.1 k).isSome →
      (State.get (ns.foldl (diffMergeStep st) acc).1 k).isSome := by
  induction ns with
  | nil => intro acc k h; exact h
  | cons kv rest ih =>
    intro acc k h
    simp only [List.foldl_cons]
    exact ih _ _ (diffMergeStep_isSome st acc kv k h)

/-- Keys the diff writes never start with the private-name prefix, so a key
that does start with it is untouched by one diff step. -/
theorem diffMergeStep_underscore (st : State) (acc : State × List String)
    (kv : String × Value) (k : String) (hk : strStarts "_" k = true) :
    State.get (diffMergeStep st acc kv).1 k = State.get acc.1 k := by
  unfold diffMergeStep
  have hne : ∀ (h : strStarts "_" kv.1 = false), k ≠ kv.1 := by
    intro h heq
    rw [← heq] at h
    rw [hk] at h
    cases h
  split
  · rfl
  · next hu =>
    have hne' : k ≠ kv.1 := hne (Bool.of_not_eq_true hu)
    split
    · split
      · rfl
      · exact get_set_ne _ _ _ _ hne'
    · exact get_set_ne _ _ _ _ hne'

theorem diffMerge_fold_underscore (st : State) (ns : List (String × Value))
    (k : String) (hk : strStarts "_" k = true) :
    ∀ (acc : State × List String),
      State.get (ns.foldl (diffMergeStep st) acc).1 k = State.get acc.1 k := by
  induction ns with
  | nil => intro acc; rfl
  | cons kv rest ih =>
    intro acc
    simp only [List.foldl_cons]
    rw [ih, diffMergeStep_underscore st acc kv k hk]

theorem diffMergeStep_prods_mono (st : State) (acc : State × List String)
    (kv : String × Value) : acc.2 ⊆ (diffMergeStep st acc kv).2 := by
  unfold diffMergeStep
  split
  · exact List.Subset.refl _
  · split
    · split
      · exact List.Subset.refl _
      · exact subset_sinsert _ _
    · exact subset_sinsert _ _

theorem diffMerge_fold_prods_mono (st : State) (ns : List (String × Value)) :
    ∀ (acc : State × List String), acc.2 ⊆ (ns.foldl (diffMergeStep st) acc).2 := by
  induction ns with
  | nil => intro acc; exact List.Subset.refl _
  | cons kv rest ih =>
    intro acc
    simp only [List.foldl_cons]
    intro a ha
    exact ih _ (diffMergeStep_prods_mono st acc kv ha)

/-! ### Memory-line lemmas (`MemoryCell.execute`) -/

theorem memoryLine_isSome (O : Oracles) (origSt : State) (acc : MemAcc)
    (raw : String) (k : String) (h : (State.get acc.state k).isSome) :
    (State.get (memoryLine O origSt acc raw).state k).isSome := by
  simp only [memoryLine]
  split
  · exact h
  · split
    · exact h
    · split
      · split
        · exact h
        · split
          · exact isSome_get_update _ _ _ h
          · exact h
      · split
        · split
          · exact isSome_get_set _ _ _ _ h
          · split
            · exact isSome_get_set _ _ _ _ h
            · exact isSome_get_set _ _ _ _ h
        · exact h

theorem memoryLine_deps_mono (O : Oracles) (origSt : State) (acc : MemAcc)
    (raw : String) : acc.deps ⊆ (memoryLine O origSt acc raw).deps := by
  simp only [memoryLine]
  split
  · exact List.Subset.refl _
  · split
    · exact List.Subset.refl _
    · split
      · split
        · exact List.Subset.refl _
        · split
          · apply subset_foldl
            intro ds kv
            obtain ⟨kk, vv⟩ := kv
            cases vv <;> try exact List.Subset.refl _
            dsimp only
            split
            · exact subset_sinsert _ _
            · exact List.Subset.refl _
          · exact List.Subset.refl _
      · split
        · split
          · exact List.Subset.refl _
          · have hsub : acc.deps ⊆
                (match O.exprNames (pyStrip (splitEqOnce (pyStrip raw)).2) with
                  | some ns => ns.foldl
                      (fun ds n =>
                        if (State.get origSt n).isSome then sinsert ds n else ds) acc.deps
                  | Option.none => acc.deps) := by
              split
              · apply subset_foldl
                intro ds n
                split
                · exact subset_sinsert _ _
                · exact List.Subset.refl _
              · exact List.Subset.refl _
            split
            · exact hsub
            · exact hsub
        · exact List.Subset.refl _

theorem memoryLine_prods_mono (O : Oracles) (origSt : State) (acc : MemAcc)
    (raw : String) : acc.prods ⊆ (memoryLine O origSt acc raw).prods := by
  simp only [memoryLine]
  split
  · exact List.Subset.refl _
  · split
    · exact List.Subset.refl _
    · split
      · split
        · exact List.Subset.refl _
        · split
          · apply subset_foldl
            intro ps kv
            exact subset_sinsert _ _
          · exact List.Subset.refl _
      · split
        · split
          · exact subset_sinsert _ _
          · split
            · exact subset_sinsert _ _
            · exact subset_sinsert _ _
        · exact List.Subset.refl _

theorem memory_fold_isSome (O : Oracles) (origSt : State) (lines : List String) :
    ∀ (acc : MemAcc) (k : String), (State.get acc.state k).isSome →
      (State.get (lines.foldl (memoryLine O origSt) acc).state k).isSome := by
  induction lines with
  | nil => intro acc k h; exact h
  | cons l rest ih =>
    intro acc k h
    simp only [List.foldl_cons]
    exact ih _ _ (memoryLine_isSome O origSt acc l k h)

theorem memory_fold_deps_mono (O : Oracles) (origSt : State) (lines : List String) :
    ∀ (acc : MemAcc), acc.deps ⊆ (lines.foldl (memoryLine O origSt) acc).deps := by
  induction lines with
  | nil => intro acc; exact List.Subset.refl _
  | cons l rest ih =>
    intro acc
    simp only [List.foldl_cons]
    exact List.Subset.trans (memoryLine_deps_mono O origSt acc l) (ih _)

theorem memory_fold_prods_mono (O : Oracles) (origSt : State) (lines : List String) :
    ∀ (acc : MemAcc), acc.prods ⊆ (lines.foldl (memoryLine O origSt) acc).prods := by
  induction lines with
  | nil => intro acc; exact List.Subset.refl _
  | cons l rest ih =>
    intro acc
    simp only [List.foldl_cons]
    exact List.Subset.trans (memoryLine_prods_mono O origSt acc l) (ih _)

/-- Claim C10: for every cell kind and every starting state, the state
returned by executing a cell contains every key of the starting state —
execution only adds keys or overwrites values, it never removes a
variable. -/
theorem c10_state_keys_preserved (O : Oracles) (c : Cell) (st : State)
    (k : String) (h : (State.get st k).isSome) :
    (State.get (Cell.execute O c st).2 k).isSome := by
  obtain ⟨kind, content, cid, outs, deps, prods⟩ := c
  cases kind with
  | markdown => exact h
  | computation =>
    simp only [Cell.execute, computationExecute]
    split
    · exact h
    · exact diffMerge_fold_isSome st _ _ k h
  | prompt cfg =>
    simp only [Cell.execute, promptExecute]
    split
    · exact h
    · exact h
    · split
      · exact h
      · exact isSome_get_set _ _ _ _ (isSome_get_set _ _ _ _ h)
  | memory =>
    simp only [Cell.execute, memoryExecute]
    exact memory_fold_isSome O st _ _ k h

/-- Witness for C10 at a concrete cell and state. -/
theorem c10_state_keys_preserved_witness :
    (State.get [("q", Value.int 7)] "q").isSome = true ∧
      (State.get (Cell.execute demoOracles memUnderscoreCell
        [("q", Value.int 7)]).2 "q").isSome = true :=
  ⟨rfl, c10_state_keys_preserved demoOracles memUnderscoreCell
    [("q", Value.int 7)] "q" (by rfl)⟩

/-- Claim C1: whenever a cell's evaluation fails, the evaluator returns the
original state unchanged together with exactly one `error`-tagged output (the
evaluators are total Lean functions, so no exception passes the evaluator
boundary); and the notebook's state store after a successful `execute_cell`
is exactly the state the evaluator returned — the store is swapped whole,
never partially merged. -/
theorem c1_failure_atomicity (O : Oracles) (c : Cell) (st : State) :
    (∀ e, Cell.evalError O c st = some e →
      (Cell.execute O c st).2 = st ∧
        (Cell.execute O c st).1.outputs = [Output.error e]) ∧
    (∀ (nb : Notebook) (i : Int) (r : Notebook × List Output),
      Notebook.executeCell O nb i = Except.ok r →
      r.1.state = (Cell.execute O (nb.cells.getD i.toNat dfltCell) nb.state).2) := by
  constructor
  · intro e he
    obtain ⟨kind, content, cid, outs, deps, prods⟩ := c
    cases kind with
    | markdown => simp [Cell.evalError] at he
    | memory => simp [Cell.evalError] at he
    | computation =>
      simp only [Cell.evalError] at he
      cases hx : O.exec content st with
      | error e2 =>
        rw [hx] at he
        obtain rfl : e2 = e := Option.some.inj he
        constructor <;> simp [Cell.execute, computationExecute, hx]
      | ok p => rw [hx] at he; cases he
    | prompt cfg =>
      simp only [Cell.evalError] at he
      cases hf : O.format content st with
      | error fe =>
        rw [hf] at he
        cases fe with
        | keyError k =>
          obtain rfl := Option.some.inj he
          constructor <;> simp [Cell.execute, promptExecute, hf]
        | other m =>
          obtain rfl := Option.some.inj he
          constructor <;> simp [Cell.execute, promptExecute, hf]
      | ok fp =>
        rw [hf] at he
        have he' : (match O.generate fp cfg.model cfg.temperature with
            | Except.error m => some m
            | Except.ok _ => (Option.none : Option String)) = some e := he
        cases hg : O.generate fp cfg.model cfg.temperature with
        | error e2 =>
          rw [hg] at he'
          obtain rfl := Option.some.inj he'
          constructor <;> simp [Cell.execute, promptExecute, hf, hg]
        | ok resp => rw [hg] at he'; cases he'
  · intro nb i r hr
    simp only [Notebook.executeCell] at hr
    split at hr
    · cases hr
    · cases hr
      rfl

/-- Witness for C1: a computation cell whose source does not parse fails,
leaving the state untouched and recording one `error` output. -/
theorem c1_failure_atomicity_witness :
    (Cell.execute demoOracles (Cell.make .computation "1/0" "cx")
        [("a", Value.int 1)]).2 = [("a", Value.int 1)] ∧
      (Cell.execute demoOracles (Cell.make .computation "1/0" "cx")
        [("a", Value.int 1)]).1.outputs = [Output.error "invalid syntax"] :=
  (c1_failure_atomicity demoOracles (Cell.make .computation "1/0" "cx")
    [("a", Value.int 1)]).1 "invalid syntax" (by rfl)

/-- Claim C5 (amended): a successful prompt execution stores its response
under the reserved last-result key; markdown cells return the state
unchanged; computation cells never change the reserved key, because the
namespace diff skips every name starting with the private-name prefix.
(Memory cells, by contrast, can overwrite it — see the counterexample.) -/
theorem c5_amended_underscore_key (O : Oracles) (c : Cell) (st : State) :
    (∀ cfg fp resp, c.kind = .prompt cfg →
      O.format c.content st = .ok fp →
      O.generate fp cfg.model cfg.temperature = .ok resp →
      State.get (Cell.execute O c st).2 "_" = some (Value.str resp)) ∧
    (c.kind = .markdown → (Cell.execute O c st).2 = st) ∧
    (c.kind = .computation →
      State.get (Cell.execute O c st).2 "_" = State.get st "_") := by
  obtain ⟨kind, content, cid, outs, deps, prods⟩ := c
  refine ⟨?_, ?_, ?_⟩
  · intro cfg fp resp hk hf hg
    cases hk
    simp [Cell.execute, promptExecute, hf, hg, get_set_self]
  · intro hk
    cases hk
    rfl
  · intro hk
    cases hk
    simp only [Cell.execute, computationExecute]
    split
    · rfl
    · exact diffMerge_fold_underscore st _ "_" rfl _

/-- Witness for C5 (amended) at the concrete prompt cell. -/
theorem c5_amended_underscore_key_witness :
    State.get (Cell.execute demoOracles promptTopicCell
        [("topic", Value.str "Python")]).2 "_" =
      some (Value.str "This is a mock response.") :=
  (c5_amended_underscore_key demoOracles promptTopicCell
      [("topic", Value.str "Python")]).1
    ⟨"gpt-4", 0.7, Option.none, Option.none⟩ "Tell me about Python"
    "This is a mock response." rfl rfl rfl

/-- Claim C4 (amended): a computation cell's reads are recomputed from
scratch on every execution (they equal the fresh analysis of the source
against the current state, whatever the previously recorded reads were), but
the reads of the other cell kinds and the writes of every kind only
accumulate: the previously recorded names are still present after the next
execution. -/
theorem c4_amended_dependency_tracking (O : Oracles) (c : Cell) (st : State) :
    (c.kind = .computation →
      (Cell.execute O c st).1.stateDependencies = compDeps O c.content st) ∧
    (c.kind ≠ .computation →
      c.stateDependencies ⊆ (Cell.execute O c st).1.stateDependencies) ∧
    c.stateProduces ⊆ (Cell.execute O c st).1.stateProduces := by
  obtain ⟨kind, content, cid, outs, deps, prods⟩ := c
  refine ⟨?_, ?_, ?_⟩
  · intro hk
    cases hk
    simp only [Cell.execute, computationExecute]
    split <;> rfl
  · intro hk
    cases kind with
    | computation => exact absurd rfl hk
    | markdown => exact List.Subset.refl _
    | memory =>
      exact memory_fold_deps_mono O st (splitLines content) ⟨st, deps, prods, []⟩
    | prompt cfg =>
      simp only [Cell.execute, promptExecute]
      have hsub : deps ⊆ (O.templateVars content).foldl
          (fun d v => if (State.get st v).isSome then sinsert d v else d) deps := by
        apply subset_foldl
        intro d v
        split
        · exact subset_sinsert _ _
        · exact List.Subset.refl _
      split
      · exact hsub
      · exact hsub
      · split
        · exact hsub
        · exact hsub
  · cases kind with
    | markdown => exact List.Subset.refl _
    | memory =>
      exact memory_fold_prods_mono O st (splitLines content) ⟨st, deps, prods, []⟩
    | computation =>
      simp only [Cell.execute, computationExecute]
      split
      · exact List.Subset.refl _
      · exact diffMerge_fold_prods_mono st _ (st, prods)
    | prompt cfg =>
      simp only [Cell.execute, promptExecute]
      split
      · exact List.Subset.refl _
      · exact List.Subset.refl _
      · split
        · exact List.Subset.refl _
        · exact List.Subset.trans (subset_sinsert _ _) (subset_sinsert _ _)

/-- Witness for C4 (amended): the fresh-recomputation equation at a
computation cell and the read-accumulation inclusion at a memory cell. -/
theorem c4_amended_dependency_tracking_witness :
    (Cell.execute demoOracles (Cell.make .computation "y = x + 1" "cw")
        [("x", Value.int 1)]).1.stateDependencies =
      compDeps demoOracles "y = x + 1" [("x", Value.int 1)] ∧
    (Cell.make .memory "x = a + 1" "mw").stateDependencies ⊆
      (Cell.execute demoOracles (Cell.make .memory "x = a + 1" "mw")
        []).1.stateDependencies :=
  ⟨(c4_amended_dependency_tracking demoOracles
      (Cell.make .computation "y = x + 1" "cw") [("x", Value.int 1)]).1 rfl,
   (c4_amended_dependency_tracking demoOracles
      (Cell.make .memory "x = a + 1" "mw") []).2.1
     (fun h => CellKind.noConfusion h)⟩

/-! ### Prefix helpers for the memory-cell line dispatch -/

theorem isPrefixOf_head_ne {a b : Char} {as bs l : List Char}
    (h1 : List.isPrefixOf (a :: as) l = true) (hne : (b == a) = false) :
    List.isPrefixOf (b :: bs) l = false := by
  cases l with
  | nil => cases h1
  | cons c cs =>
    simp only [List.isPrefixOf, Bool.and_eq_true, beq_iff_eq] at h1
    obtain ⟨rfl, -⟩ := h1
    simp only [List.isPrefixOf, Bool.and_eq_false_iff]
    left
    exact hne

theorem starts_update_ne_empty (s : String)
    (h : strStarts "memory.update(" s = true) : ¬ s = "" := by
  intro hs
  subst hs
  exact absurd h (by decide)

theorem starts_update_not_hash (s : String)
    (h : strStarts "memory.update(" s = true) : strStarts "#" s = false := by
  unfold strStarts at h ⊢
  have h' : List.isPrefixOf ('m' :: "emory.update(".toList) s.toList = true := h
  have g : List.isPrefixOf ('#' :: ([] : List Char)) s.toList = false :=
    isPrefixOf_head_ne h' (by decide)
  exact g

/-- Claim C3 (amended): a bulk-update line whose argument fails safe-literal
parsing only appends an `error`-tagged output for that line — the state,
dependency and produce sets of the running execution are untouched and the
loop continues with the remaining lines, so updates made by other lines of
the same cell are kept, not discarded. -/
theorem c3_amended_malformed_update_line_skipped (O : Oracles) (origSt : State)
    (acc : MemAcc) (rawLine : String) (e : String)
    (h1 : strStarts "memory.update(" (pyStrip rawLine) = true)
    (h2 : O.litEval (strDropLast (strDrop (pyStrip rawLine) 14)) = Except.error e) :
    memoryLine O origSt acc rawLine =
      { acc with outs := acc.outs ++
          [Output.error ("Error parsing memory.update(): " ++ e)] } := by
  have hh2 : ¬ strStarts "#" (pyStrip rawLine) = true := by
    simp only [starts_update_not_hash _ h1]
    decide
  simp only [memoryLine]
  rw [if_neg (starts_update_ne_empty _ h1), if_neg hh2, if_pos h1, h2]

/-- Witness for C3 (amended): the malformed bulk-update line of the
counterexample cell, started from an accumulator that already carries the
update of a previous line. -/
theorem c3_amended_malformed_update_line_skipped_witness :
    memoryLine demoOracles [] ⟨[("x", Value.int 1)], [], ["x"], []⟩
        "memory.update(foo)" =
      { state := [("x", Value.int 1)], deps := [], prods := ["x"],
        outs := [Output.error
          ("Error parsing memory.update(): " ++ "malformed node or string")] } :=
  c3_amended_malformed_update_line_skipped demoOracles []
    ⟨[("x", Value.int 1)], [], ["x"], []⟩ "memory.update(foo)"
    "malformed node or string" rfl rfl

/-- Counterexample for C3 as stated: the memory cell
`x = 1` / `memory.update(foo)` has a malformed bulk-update statement, yet
executing it returns a state extended with the other line's update — not the
unchanged state the claim demands (the error output is recorded and the line
is skipped instead). -/
theorem c3_counterexample :
    (Cell.execute demoOracles memBadCell []).2 = [("x", Value.int 1)] ∧
    (Cell.execute demoOracles memBadCell []).1.outputs =
      [Output.error "Error parsing memory.update(): malformed node or string",
       Output.memoryUpdate ["x"] [("x", "1")]] ∧
    ([("x", Value.int 1)] : State) ≠ [] :=
  ⟨rfl, rfl, fun h => List.noConfusion h⟩

/-- Claim C2 (code bug): the repository's own test
`test_execute_prompt_cell` asserts that the first prompt cell's response is
stored under `response_0`, and the source comments say `_cell_index` "will
be set during execution" — but no code path ever assigns it, so executing
the prompt cell at index 0 through the notebook stores the response under a
name derived from the cell identifier instead.  The spec describes the
intended priority; the code's index branch is dead. -/
theorem c2_response_naming_code_bug :
    ∃ r, Notebook.executeCell demoOracles c2Notebook 0 = Except.ok r ∧
      State.get r.1.state "response_0" = Option.none ∧
      State.get r.1.state "response_abcdef12" =
        some (Value.str "This is a mock response.") ∧
      State.get r.1.state "_" = some (Value.str "This is a mock response.") :=
  ⟨_, rfl, rfl, rfl, rfl⟩

/-- Counterexample for C5 as stated: after the prompt cell at index 0
executes (setting the reserved key to the mock response), executing the
memory cell `_ = 5` at index 1 overwrites the reserved key, so it no longer
holds the most recently executed prompt cell's response. -/
theorem c5_counterexample :
    ∃ r1 r2, Notebook.executeCell demoOracles c5Notebook 0 = Except.ok r1 ∧
      State.get r1.1.state "_" = some (Value.str "This is a mock response.") ∧
      Notebook.executeCell demoOracles r1.1 1 = Except.ok r2 ∧
      State.get r2.1.state "_" = some (Value.int 5) ∧
      Value.int 5 ≠ Value.str "This is a mock response." :=
  ⟨_, _, rfl, rfl, rfl, rfl, fun h => Value.noConfusion h⟩

/-- Counterexample for C4 as stated: the memory cell `x = a + 1` executed
against a state containing `a` records the read `a`; executing the same cell
again against the empty state still reports `a` among its reads even though
the empty state has no names at all, while a fresh copy of the cell executed
against the empty state reports no reads — the recorded set carries names
over from the earlier execution. -/
theorem c4_counterexample :
    ((Cell.execute demoOracles
        (Cell.execute demoOracles memACell [("a", Value.int 1)]).1
        []).1.stateDependencies = ["a"]) ∧
    (Cell.execute demoOracles memACell []).1.stateDependencies = [] ∧
    stateKeys ([] : State) = [] :=
  ⟨rfl, rfl, rfl⟩

/-! ### Relating the dependency visitor to the event view -/

theorem evFold_append (sv : List String) (l1 l2 : List Ev) :
    ∀ vs, evFold sv vs (l1 ++ l2) = evFold sv (evFold sv vs l1) l2 := by
  induction l1 with
  | nil => intro vs; rfl
  | cons ev rest ih =>
    intro vs
    cases ev with
    | store m => simp only [List.cons_append, evFold]; exact ih _
    | load m => simp only [List.cons_append, evFold]; exact ih _

theorem visitExpr_eq_evFold (sv : List String) (e : Expr) :
    ∀ vs, visitExpr sv vs e = evFold sv vs (exprEvents e) := by
  induction e with
  | const v => intro vs; rfl
  | name id => intro vs; rfl
  | binAdd a b iha ihb =>
    intro vs
    simp only [visitExpr, exprEvents, evFold_append]
    rw [iha, ihb]

theorem evFold_stores (sv : List String) (tgts : List String) :
    ∀ vs, evFold sv vs (tgts.map Ev.store) =
      { vs with assignments := tgts.foldl sinsert vs.assignments } := by
  induction tgts with
  | nil => intro vs; rfl
  | cons t rest ih =>
    intro vs
    simp only [List.map_cons, evFold, List.foldl_cons]
    exact ih _

theorem visitStmt_eq_evFold (sv : List String) (s : Stmt) (vs : VisitorSt) :
    visitStmt sv vs s = evFold sv vs (stmtEvents s) := by
  cases s with
  | assign tgts value =>
    simp only [visitStmt, stmtEvents, evFold_append, evFold_stores]
    rw [visitExpr_eq_evFold]

theorem analyze_eq_evFold (sv : List String) (prog : List Stmt) :
    ∀ vs, prog.foldl (visitStmt sv) vs = evFold sv vs (progEvents prog) := by
  induction prog with
  | nil => intro vs; rfl
  | cons s rest ih =>
    intro vs
    simp only [List.foldl_cons, progEvents, evFold_append]
    rw [visitStmt_eq_evFold, ih]

theorem mem_evFold_deps (sv : List String) (evs : List Ev) :
    ∀ (vs : VisitorSt) (n : String),
      n ∈ (evFold sv vs evs).dependencies ↔
        n ∈ vs.dependencies ∨
          (n ∈ sv ∧ n ∉ vs.assignments ∧ loadBeforeStore n evs = true) := by
  induction evs with
  | nil => intro vs n; simp [evFold, loadBeforeStore]
  | cons ev rest ih =>
    intro vs n
    cases ev with
    | store m =>
      simp only [evFold, loadBeforeStore]
      rw [ih]
      by_cases hmn : m = n
      · subst hmn
        simp [mem_sinsert]
      · simp [mem_sinsert, hmn, Ne.symm hmn]
    | load m =>
      simp only [evFold, loadBeforeStore]
      rw [ih]
      unfold visitLoad
      by_cases hmn : m = n
      · subst hmn
        by_cases hsv : m ∈ sv
        · by_cases hass : m ∈ vs.assignments
          · simp [hsv, hass]
          · simp [hsv, hass, mem_sinsert]
        · simp [hsv]
      · by_cases hsv : m ∈ sv
        · by_cases hass : m ∈ vs.assignments
          · simp [hsv, hass, hmn]
          · simp [hsv, hass, mem_sinsert, hmn, Ne.symm hmn]
        · simp [hsv, hmn]

/-- Claim C6 (amended): the dependency analysis counts a known name as a
read exactly when it has a load occurrence before any assignment to it in
visitor order — and because the visitor reaches an assignment's targets
before its right-hand side, the cell `x = x + 1` with `x` a known state name
records no read of `x`; loads of a name after it has been locally assigned
are likewise never counted. -/
theorem c6_amended_load_analysis :
    (∀ (prog : List Stmt) (sv : List String) (n : String),
      n ∈ analyzeStmts prog sv ↔
        n ∈ sv ∧ loadBeforeStore n (progEvents prog) = true) ∧
    analyzeStmts
      [Stmt.assign ["x"] (Expr.binAdd (Expr.name "x") (Expr.const (Value.int 1)))]
      ["x"] = [] := by
  constructor
  · intro prog sv n
    unfold analyzeStmts
    rw [analyze_eq_evFold, mem_evFold_deps]
    simp
  · rfl

/-- Counterexample for C6 as stated: in the cell `x = x + 1` with `x` a
known state name, `x` is NOT counted as a read — the assignment target is
visited before the right-hand side, so the load of `x` is already
shadowed. -/
theorem c6_counterexample :
    "x" ∉ analyzeStmts
        [Stmt.assign ["x"] (Expr.binAdd (Expr.name "x") (Expr.const (Value.int 1)))]
        ["x"] ∧
      "x" ∈ (["x"] : List String) :=
  ⟨by decide, by decide⟩

/-! ### Round-trip lemmas -/

theorem loadCell_toRecord (c : Cell) :
    loadCell (Cell.toRecord c) = Except.ok (stripCell c) := by
  obtain ⟨kind, content, cid, outs, deps, prods⟩ := c
  cases kind <;> rfl

theorem mapM_loadCell (cells : List Cell) :
    (cells.map Cell.toRecord).mapM loadCell = Except.ok (cells.map stripCell) := by
  induction cells with
  | nil => rfl
  | cons c rest ih =>
    simp only [List.map_cons, List.mapM_cons, loadCell_toRecord, ih]
    rfl

/-- Claim C7 (amended): loading the document produced by saving a notebook
yields a notebook with the same name, identifier and cell count, and for
each cell the same kind tag, content and identifier; for prompt cells the
model and temperature survive, but the optional explicit response-variable
name does not (it is reset, since `to_dict` never stores it); the loaded
notebook's state store is empty. -/
theorem c7_amended_round_trip (nb : Notebook) :
    Notebook.loadDoc (Notebook.toDoc nb) =
      Except.ok ⟨nb.name, nb.notebookId, nb.cells.map stripCell, []⟩ ∧
    (nb.cells.map stripCell).length = nb.cells.length ∧
    (∀ c : Cell, kindTag (stripCell c).kind = kindTag c.kind ∧
      (stripCell c).content = c.content ∧
      (stripCell c).cellId = c.cellId ∧
      (stripCell c).outputs = c.outputs ∧
      (∀ cfg, c.kind = .prompt cfg →
        (stripCell c).kind =
          .prompt ⟨cfg.model, cfg.temperature, Option.none, Option.none⟩)) := by
  refine ⟨?_, by simp, ?_⟩
  · unfold Notebook.loadDoc
    rw [show (Notebook.toDoc nb).cells = nb.cells.map Cell.toRecord from rfl,
      mapM_loadCell]
    rfl
  · intro c
    obtain ⟨kind, content, cid, outs, deps, prods⟩ := c
    refine ⟨?_, rfl, rfl, rfl, ?_⟩
    · cases kind <;> rfl
    · intro cfg hk
      cases hk
      rfl

/-- Witness for C7 (amended) at the notebook holding a prompt cell with an
explicit response variable. -/
theorem c7_amended_round_trip_witness :
    Notebook.loadDoc (Notebook.toDoc c7Notebook) =
      Except.ok ⟨c7Notebook.name, c7Notebook.notebookId,
        c7Notebook.cells.map stripCell, []⟩ ∧
    (stripCell (c7Notebook.cells.getD 0 dfltCell)).kind =
      CellKind.prompt ⟨"gpt-4", 0.7, Option.none, Option.none⟩ :=
  ⟨(c7_amended_round_trip c7Notebook).1,
   ((c7_amended_round_trip c7Notebook).2.2 (c7Notebook.cells.getD 0 dfltCell)).2.2.2.2
     ⟨"gpt-4", 0.7, some "summary", Option.none⟩ rfl⟩

/-- Counterexample for C7 as stated: a prompt cell configured with the
explicit response-variable name `summary` round-trips to a prompt cell with
no response variable — the kind-specific configuration is not fully
preserved. -/
theorem c7_counterexample :
    ∃ nb, Notebook.loadDoc (Notebook.toDoc c7Notebook) = Except.ok nb ∧
      (nb.cells.getD 0 dfltCell).kind =
        CellKind.prompt ⟨"gpt-4", 0.7, Option.none, Option.none⟩ ∧
      (c7Notebook.cells.getD 0 dfltCell).kind =
        CellKind.prompt ⟨"gpt-4", 0.7, some "summary", Option.none⟩ ∧
      (some "summary" : Option String) ≠ Option.none :=
  ⟨_, rfl, rfl, rfl, fun h => Option.noConfusion h⟩

/-- Claim C8: cell `j < i` is a dependency of cell `i` exactly when some
name in cell `j`'s recorded writes is among cell `i`'s recorded reads; and in
the concrete notebook `x = 1` then `y = x + 1`, after executing both cells
in order, the dependencies of cell 1 are exactly `{0}` and the dependents of
cell 0 are exactly `{1}`. -/
theorem c8_dependency_graph :
    (∀ (nb : Notebook) (i : Nat), i < nb.cells.length →
      ∀ (j : Nat) (L : List Nat),
        Notebook.getCellDependencies nb (i : Int) = Except.ok L →
        (j ∈ L ↔ j < i ∧
          ((nb.cells.getD j dfltCell).stateProduces).any
            (fun v => (nb.cells.getD i dfltCell).stateDependencies.contains v)
            = true)) ∧
    (∃ r1 r2, Notebook.executeCell demoOracles c8Notebook 0 = Except.ok r1 ∧
      Notebook.executeCell demoOracles r1.1 1 = Except.ok r2 ∧
      Notebook.getCellDependencies r2.1 1 = Except.ok [0] ∧
      Notebook.getDependentCells r2.1 0 = Except.ok [1]) := by
  constructor
  · intro nb i hi j L hL
    unfold Notebook.getCellDependencies at hL
    rw [if_neg (by push_neg; omega)] at hL
    rw [Int.toNat_natCast] at hL
    cases hL
    simp [List.mem_filter, List.mem_range, and_comm]
  · exact ⟨_, _, rfl, rfl, rfl, rfl⟩

/-- Witness for C8 at the unexecuted example notebook, whose dependency
list for cell 1 is empty because nothing has been recorded yet. -/
theorem c8_dependency_graph_witness :
    0 ∈ ([] : List Nat) ↔ 0 < 1 ∧
      ((c8Notebook.cells.getD 0 dfltCell).stateProduces).any
        (fun v => (c8Notebook.cells.getD 1 dfltCell).stateDependencies.contains v)
        = true :=
  c8_dependency_graph.1 c8Notebook 1 (by decide) 0 [] rfl

/-! ### Load-failure lemmas -/

theorem loadCell_unknown (r : CellRecord)
    (h1 : r.typeTag ≠ "MarkdownCell") (h2 : r.typeTag ≠ "ComputationCell")
    (h3 : r.typeTag ≠ "PromptCell") (h4 : r.typeTag ≠ "MemoryCell") :
    loadCell r = Except.error ("Unknown cell type: " ++ r.typeTag) := by
  unfold loadCell
  rw [if_neg h1, if_neg h2, if_neg h3, if_neg h4]

theorem mapM_loop_error (rs : List CellRecord) (r : CellRecord)
    (hr : r ∈ rs) (e : String) (hre : loadCell r = Except.error e) :
    ∀ acc, ∃ e2, List.mapM.loop loadCell rs acc = Except.error e2 := by
  induction rs with
  | nil => cases hr
  | cons a rest ih =>
    intro acc
    rcases List.mem_cons.mp hr with rfl | hmem
    · refine ⟨e, ?_⟩
      rw [show List.mapM.loop loadCell (r :: rest) acc =
          (loadCell r >>= fun b => List.mapM.loop loadCell rest (b :: acc)) from rfl,
        hre]
      rfl
    · cases ha : loadCell a with
      | error e2 =>
        refine ⟨e2, ?_⟩
        rw [show List.mapM.loop loadCell (a :: rest) acc =
            (loadCell a >>= fun b => List.mapM.loop loadCell rest (b :: acc)) from rfl,
          ha]
        rfl
      | ok c =>
        obtain ⟨e2, h2⟩ := ih hmem (c :: acc)
        refine ⟨e2, ?_⟩
        rw [show List.mapM.loop loadCell (a :: rest) acc =
            (loadCell a >>= fun b => List.mapM.loop loadCell rest (b :: acc)) from rfl,
          ha]
        exact h2

theorem mapM_loadCell_error (rs : List CellRecord) (r : CellRecord)
    (hr : r ∈ rs) (he : ∃ e, loadCell r = Except.error e) :
    ∃ e, rs.mapM loadCell = Except.error e := by
  obtain ⟨e, hre⟩ := he
  obtain ⟨e2, h⟩ := mapM_loop_error rs r hr e hre []
  exact ⟨e2, h⟩

/-- Claim C9: for every index outside `[0, number of cells)` the three
index-taking notebook operations fail with the out-of-range error (in this
functional embedding no notebook is produced, so nothing is mutated), and
loading a document containing a cell record with an unrecognized kind tag
fails hard instead of skipping the record. -/
theorem c9_structural_errors (O : Oracles) (nb : Notebook) (i : Int) :
    ((i < 0 ∨ (nb.cells.length : Int) ≤ i) →
      Notebook.executeCell O nb i = Except.error (outOfRangeMsg i) ∧
      Notebook.getCellDependencies nb i = Except.error (outOfRangeMsg i) ∧
      Notebook.getDependentCells nb i = Except.error (outOfRangeMsg i)) ∧
    (∀ (doc : NotebookDoc) (r : CellRecord), r ∈ doc.cells →
      r.typeTag ≠ "MarkdownCell" → r.typeTag ≠ "ComputationCell" →
      r.typeTag ≠ "PromptCell" → r.typeTag ≠ "MemoryCell" →
      ∃ e, Notebook.loadDoc doc = Except.error e) := by
  constructor
  · intro h
    refine ⟨?_, ?_, ?_⟩
    · unfold Notebook.executeCell
      rw [if_pos h]
    · unfold Notebook.getCellDependencies
      rw [if_pos h]
    · unfold Notebook.getDependentCells
      rw [if_pos h]
  · intro doc r hmem h1 h2 h3 h4
    obtain ⟨e, he⟩ :=
      mapM_loadCell_error doc.cells r hmem ⟨_, loadCell_unknown r h1 h2 h3 h4⟩
    refine ⟨e, ?_⟩
    unfold Notebook.loadDoc
    rw [he]
    rfl

/-- Witness for C9: the out-of-range index 5 on the two-cell example
notebook, and the document with the unknown kind tag. -/
theorem c9_structural_errors_witness :
    Notebook.executeCell demoOracles c8Notebook 5 =
      Except.error (outOfRangeMsg 5) ∧
    (∃ e, Notebook.loadDoc badDoc = Except.error e) :=
  ⟨((c9_structural_errors demoOracles c8Notebook 5).1 (by decide)).1,
   (c9_structural_errors demoOracles c8Notebook 5).2 badDoc
     ⟨"cell-bad", "FancyCell", "whatever", [], Option.none, Option.none⟩
     (List.mem_cons_self _ _) (by decide) (by decide) (by decide) (by decide)⟩

end LLMRepl
